import Mathlib

/-!
Verification of the transcript formatting, pagination and run/cleanup logic
of the Whisper transcription UI (`app.py`).

The non-UI logic of the program is embedded shallowly:

* `format_time` mirrors the Python function of the same name; Python floats
  are modelled as rationals, Python `%` on floats as `pyMod`, the format
  specifier `{x:06.3f}` as `fmt063` (decimal rounding ties-to-even, as the
  underlying C formatting does), and `str.replace('.', ',')` as `pyReplace`.
* `output_text` mirrors the formatted-output loop (TXT / SRT / VTT branches),
  with the enumerated segment loop embedded as the fold `renderLoop`.
* `pages` mirrors the pagination list comprehension
  `[output_text[i:i+chunk_size] for i in range(0, len(output_text), chunk_size)]`,
  with Python `range(0, stop, step)` embedded as `pyRange`.
* `editPage` / `final_transcript` mirror the page-edit assignment and the
  `"".join(...)` reassembly of the edit screen.
* `runTranscription` mirrors the `try`/`except`/`finally` block around the
  transcription call, with the external model call abstracted as a
  `TranscribeOutcome` (success with a result, or a raised error).
-/

namespace WhisperApp

/-- Python whitespace (the characters stripped by `str.strip()`). -/
def pyIsSpace (c : Char) : Bool :=
  c == ' ' || c == '\t' || c == '\n' || c == '\r' || c == '\x0b' || c == '\x0c'

/-- Python `s.strip()`: remove leading and trailing whitespace. -/
def pyStrip (s : String) : String :=
  String.mk (((s.toList.dropWhile pyIsSpace).reverse.dropWhile pyIsSpace).reverse)

/-- Zero-padding to a minimum width, as Python `{:0Nd}` does on nonnegative
input (for negative input at the widths used here no padding ever happens,
which also agrees with Python). -/
def padZeros (width : Nat) (s : String) : String :=
  String.mk (List.replicate (width - s.length) '0') ++ s

/-- Round a rational to the nearest integer, ties to even (the rounding used
by C/Python binary-float formatting). -/
def roundHalfEven (x : ℚ) : ℤ :=
  if x - ⌊x⌋ < 1/2 then ⌊x⌋
  else if 1/2 < x - ⌊x⌋ then ⌊x⌋ + 1
  else if ⌊x⌋ % 2 = 0 then ⌊x⌋ else ⌊x⌋ + 1

/-- Python float `%`: `a - b * ⌊a / b⌋` (the result has the divisor's sign). -/
def pyMod (a b : ℚ) : ℚ := a - b * ⌊a / b⌋

/-- Decimal rendering of `m` thousandths with three decimal digits,
zero-padded to a total width of 6. -/
def fmt063Int (m : ℤ) : String :=
  let sign := if m < 0 then "-" else ""
  padZeros 6 (sign ++ toString (m.natAbs / 1000) ++ "." ++ padZeros 3 (toString (m.natAbs % 1000)))

/-- Python format `{x:06.3f}`: three decimal digits, zero-padded to width 6. -/
def fmt063 (x : ℚ) : String :=
  fmt063Int (roundHalfEven (x * 1000))

/-- Python `s.replace(a, b)` for single characters. -/
def pyReplace (s : String) (a b : Char) : String :=
  String.mk (s.toList.map fun c => if c == a then b else c)

/-- Function `format_time(seconds, format_type)` from `app.py`: convert seconds to the
SRT/VTT time format; any other format kind yields `""`. -/
def format_time (seconds : ℚ) (format_type : String) : String :=
  let hours : ℤ := ⌊seconds / 3600⌋
  let minutes : ℤ := ⌊pyMod seconds 3600 / 60⌋
  let secs : ℚ := pyMod seconds 60
  if format_type = "SRT" then
    pyReplace
      (padZeros 2 (toString hours) ++ ":" ++ padZeros 2 (toString minutes) ++ ":" ++ fmt063 secs)
      '.' ','
  else if format_type = "VTT" then
    padZeros 2 (toString hours) ++ ":" ++ padZeros 2 (toString minutes) ++ ":" ++ fmt063 secs
  else ""

/-- A timed segment produced by the model: `{start, end, text}` (`endTime`
embeds the Python key `'end'`). -/
structure Segment where
  start : ℚ
  endTime : ℚ
  text : String

/-- The model's result dictionary: full text plus the timed segments. -/
structure TranscriptionResult where
  text : String
  segments : List Segment

/-- One iteration of the output loop: what iteration `i` (1-based) appends to
`output_text` for `segment`. -/
def segmentBlock (format_option : String) (i : ℕ) (segment : Segment) : String :=
  let text := pyStrip segment.text
  if format_option = "SRT" then
    toString i ++ "\n"
      ++ format_time segment.start "SRT" ++ " --> " ++ format_time segment.endTime "SRT" ++ "\n"
      ++ text ++ "\n\n"
  else if format_option = "VTT" then
    format_time segment.start "VTT" ++ " --> " ++ format_time segment.endTime "VTT" ++ "\n"
      ++ text ++ "\n\n"
  else ""

/-- The `for i, segment in enumerate(result["segments"], start=1)` loop,
accumulating into `output_text`. -/
def renderLoop (format_option : String) : List (ℕ × Segment) → String → String
  | [], acc => acc
  | p :: rest, acc => renderLoop format_option rest (acc ++ segmentBlock format_option p.1 p.2)

/-- Value `output_text` as built by lines 103–118 of `app.py`. -/
def output_text (format_option : String) (result : TranscriptionResult) : String :=
  if format_option = "TXT" then result.text
  else renderLoop format_option (result.segments.enumFrom 1) ""

/-- Constant `chunk_size = 2000  # Characters per page`. -/
def chunk_size : ℕ := 2000

/-- Python `range(0, stop, step)` for positive `step`. -/
def pyRange (stop step : ℕ) : List ℕ :=
  (List.range ((stop + step - 1) / step)).map (· * step)

/-- Pagination at the character-list level: the slices
`t[i : i + chunk_size]` for `i in range(0, len(t), chunk_size)`. -/
def charPages (t : List Char) : List (List Char) :=
  (pyRange t.length chunk_size).map fun i => (t.drop i).take chunk_size

/-- Session value `st.session_state.pages`: the pagination list comprehension of `app.py`. -/
def pages (output : String) : List String :=
  (charPages output.toList).map String.mk

/-- Recursive restatement of the pagination slices (first `chunk_size`
characters, then the chunks of the rest); used to reason about `charPages` by
induction. -/
def chunked (t : List Char) : List (List Char) :=
  if h : t = [] then []
  else t.take chunk_size :: chunked (t.drop chunk_size)
termination_by t.length
decreasing_by
  have hp : 0 < t.length := List.length_pos.mpr h
  simp only [List.length_drop, chunk_size]
  omega

/-- Assignment `st.session_state.edited_pages[current_page] = edited_text`. -/
def editPage (edited_pages : List String) (current_page : ℕ) (edited_text : String) :
    List String :=
  edited_pages.set current_page edited_text

/-- Reassembly `final_transcript = "".join(st.session_state.edited_pages)`. -/
def final_transcript (edited_pages : List String) : String :=
  String.join edited_pages

/-- The per-session page state set by a successful run. -/
structure SessionState where
  pages : List String
  current_page : ℕ
  edited_pages : List String
deriving DecidableEq

/-- The abstract outcome of the external `model.transcribe` call. -/
inductive TranscribeOutcome where
  | success (result : TranscriptionResult)
  | failure (msg : String)

/-- What a run leaves behind: the session page state, the error banner (if
any), and whether the temporary audio file got removed. -/
structure RunResult where
  session : Option SessionState
  errorShown : Option String
  tempRemoved : Bool

/-- Python `try`/`except`/`finally`: the cleanup runs on the success exit and on the
caught-error exit alike. -/
def tryExceptFinally {α σ : Type} (body : Except String α)
    (onOk : α → σ) (onErr : String → σ) (cleanup : σ → σ) : σ :=
  match body with
  | .ok a => cleanup (onOk a)
  | .error e => cleanup (onErr e)

/-- The `try` body of lines 88–132: on success, format the output and install
the fresh page state (`edited_pages` starts as a copy of `pages`); a raised
transcription error propagates. -/
def transcribeBody (format_option : String) (outcome : TranscribeOutcome) :
    Except String SessionState :=
  match outcome with
  | .success result =>
      let t := output_text format_option result
      .ok { pages := pages t, current_page := 0, edited_pages := pages t }
  | .failure msg => .error msg

/-- Lines 83–139 of `app.py`: the temporary file exists while the body runs;
on success the new session state replaces the prior one, on a raised error the
error is reported and the prior state is kept; the `finally` block removes the
temporary file on both paths. -/
def runTranscription (prior : Option SessionState) (format_option : String)
    (outcome : TranscribeOutcome) : RunResult :=
  tryExceptFinally (transcribeBody format_option outcome)
    (fun s => { session := some s, errorShown := none, tempRemoved := false })
    (fun e => { session := prior, errorShown := some ("Transcription failed: " ++ e),
                tempRemoved := false })
    (fun r => { r with tempRemoved := true })

/-- Evaluation helper: once the three numeric atoms of `format_time` are
known, the VTT output is a pure string computation. -/
lemma format_time_vtt_eval (q : ℚ) (H M m : ℤ)
    (h1 : ⌊q / 3600⌋ = H) (h2 : ⌊pyMod q 3600 / 60⌋ = M)
    (h3 : roundHalfEven (pyMod q 60 * 1000) = m) :
    format_time q "VTT" =
      padZeros 2 (toString H) ++ ":" ++ padZeros 2 (toString M) ++ ":" ++ fmt063Int m := by
  unfold format_time fmt063
  rw [h1, h2]
  dsimp only
  rw [h3]
  rfl

/-- Evaluation helper for the SRT branch. -/
lemma format_time_srt_eval (q : ℚ) (H M m : ℤ)
    (h1 : ⌊q / 3600⌋ = H) (h2 : ⌊pyMod q 3600 / 60⌋ = M)
    (h3 : roundHalfEven (pyMod q 60 * 1000) = m) :
    format_time q "SRT" =
      pyReplace
        (padZeros 2 (toString H) ++ ":" ++ padZeros 2 (toString M) ++ ":" ++ fmt063Int m)
        '.' ',' := by
  unfold format_time fmt063
  rw [h1, h2]
  dsimp only
  rw [h3]
  rfl

/-- Folding string append, started from `s`, prepends `s` to the result. -/
lemma foldl_append_shift (l : List String) : ∀ s : String,
    l.foldl (· ++ ·) s = s ++ l.foldl (· ++ ·) "" := by
  induction l with
  | nil => intro s; exact (String.append_empty s).symm
  | cons a l ih =>
      intro s
      show l.foldl (· ++ ·) (s ++ a) = s ++ l.foldl (· ++ ·) ("" ++ a)
      rw [ih (s ++ a), ih ("" ++ a), String.empty_append, String.append_assoc]

lemma string_join_cons (s : String) (l : List String) :
    String.join (s :: l) = s ++ String.join l := by
  show (s :: l).foldl (· ++ ·) "" = s ++ l.foldl (· ++ ·) ""
  show l.foldl (· ++ ·) ("" ++ s) = s ++ l.foldl (· ++ ·) ""
  rw [String.empty_append, foldl_append_shift]

lemma string_join_append (a b : List String) :
    String.join (a ++ b) = String.join a ++ String.join b := by
  induction a with
  | nil => simp only [List.nil_append]; rw [show String.join [] = "" from rfl, String.empty_append]
  | cons x a ih =>
      rw [List.cons_append, string_join_cons, string_join_cons, ih, String.append_assoc]

lemma string_join_map_mk (ls : List (List Char)) :
    String.join (ls.map String.mk) = String.mk ls.flatten := by
  induction ls with
  | nil => rfl
  | cons a ls ih =>
      rw [List.map_cons, string_join_cons, ih, List.flatten_cons]
      rfl

/-- The output loop is the join of the per-iteration blocks, appended to the
accumulator. -/
lemma renderLoop_eq (fmt : String) (l : List (ℕ × Segment)) : ∀ acc : String,
    renderLoop fmt l acc = acc ++ String.join (l.map fun p => segmentBlock fmt p.1 p.2) := by
  induction l with
  | nil => intro acc; exact (String.append_empty acc).symm
  | cons p rest ih =>
      intro acc
      show renderLoop fmt rest (acc ++ segmentBlock fmt p.1 p.2) = _
      rw [ih, List.map_cons, string_join_cons, String.append_assoc]

/-- C6: TXT rendering returns exactly the model's concatenated text field. -/
theorem txt_rendering (result : TranscriptionResult) :
    output_text "TXT" result = result.text := rfl

/-- C1: SRT rendering emits, for each segment in input order, a block made of
the 1-based sequence index line, the `start --> end` SRT timestamp line, the
trimmed segment text, and a blank-line separator; on two segments this gives
two numbered, correctly ordered cue blocks with trailing blank lines. -/
theorem srt_rendering :
    (∀ result : TranscriptionResult,
      output_text "SRT" result =
        String.join ((result.segments.enumFrom 1).map fun p =>
          toString p.1 ++ "\n"
            ++ format_time p.2.start "SRT" ++ " --> " ++ format_time p.2.endTime "SRT" ++ "\n"
            ++ pyStrip p.2.text ++ "\n\n"))
    ∧ output_text "SRT" ⟨" Hello world", [⟨0, 3/2, " Hello "⟩, ⟨3/2, 3, "world"⟩]⟩ =
        "1\n00:00:00,000 --> 00:00:01,500\nHello\n\n2\n00:00:01,500 --> 00:00:03,000\nworld\n\n" := by
  have hgen : ∀ result : TranscriptionResult,
      output_text "SRT" result =
        String.join ((result.segments.enumFrom 1).map fun p =>
          toString p.1 ++ "\n"
            ++ format_time p.2.start "SRT" ++ " --> " ++ format_time p.2.endTime "SRT" ++ "\n"
            ++ pyStrip p.2.text ++ "\n\n") := by
    intro result
    show renderLoop "SRT" (result.segments.enumFrom 1) "" = _
    rw [renderLoop_eq, String.empty_append]
    rfl
  refine ⟨hgen, ?_⟩
  rw [hgen]
  have e0 : format_time 0 "SRT" = "00:00:00,000" := by
    rw [format_time_srt_eval 0 0 0 0]
    · decide
    · norm_num
    · unfold pyMod; norm_num
    · unfold roundHalfEven pyMod; norm_num
  have e1 : format_time (3/2) "SRT" = "00:00:01,500" := by
    rw [format_time_srt_eval (3/2) 0 0 1500]
    · decide
    · norm_num
    · unfold pyMod; norm_num
    · unfold roundHalfEven pyMod; norm_num
  have e2 : format_time 3 "SRT" = "00:00:03,000" := by
    rw [format_time_srt_eval 3 0 0 3000]
    · decide
    · norm_num
    · unfold pyMod; norm_num
    · unfold roundHalfEven pyMod; norm_num
  simp only [List.enumFrom, List.map_cons, List.map_nil]
  rw [e0, e1, e2]
  decide

/-- C7: VTT rendering emits, for each segment in input order, an unnumbered
cue: the `start --> end` VTT timestamp line (no sequence index line), the
trimmed segment text, and a blank-line separator. -/
theorem vtt_rendering (result : TranscriptionResult) :
    output_text "VTT" result =
      String.join ((result.segments.enumFrom 1).map fun p =>
        format_time p.2.start "VTT" ++ " --> " ++ format_time p.2.endTime "VTT" ++ "\n"
          ++ pyStrip p.2.text ++ "\n\n") := by
  show renderLoop "VTT" (result.segments.enumFrom 1) "" = _
  rw [renderLoop_eq, String.empty_append]
  rfl

/-- C2: time formatting is `HH:MM:SS.mmm` with hours/minutes/seconds from
integer division and modulo on a 3600/60 base, milliseconds from rounding the
fractional remainder to 3 decimal digits, a comma decimal separator for SRT
and a period for VTT; on 3725.5 seconds the SRT format yields
"01:02:05,500" and the VTT format yields "01:02:05.500". -/
theorem time_formatting :
    format_time (3725.5 : ℚ) "SRT" = "01:02:05,500"
    ∧ format_time (3725.5 : ℚ) "VTT" = "01:02:05.500"
    ∧ (∀ q : ℚ, format_time q "SRT" = pyReplace (format_time q "VTT") '.' ',')
    ∧ ∀ q : ℚ, format_time q "VTT" =
        padZeros 2 (toString ⌊q / 3600⌋) ++ ":" ++ padZeros 2 (toString ⌊pyMod q 3600 / 60⌋)
          ++ ":" ++ fmt063 (pyMod q 60) := by
  refine ⟨?_, ?_, fun q => rfl, fun q => rfl⟩
  · rw [format_time_srt_eval (3725.5 : ℚ) 1 2 5500]
    · decide
    · norm_num
    · unfold pyMod; norm_num
    · unfold roundHalfEven pyMod; norm_num
  · rw [format_time_vtt_eval (3725.5 : ℚ) 1 2 5500]
    · decide
    · norm_num
    · unfold pyMod; norm_num
    · unfold roundHalfEven pyMod; norm_num

/-- C10: for any format kind other than "SRT" and "VTT", `format_time`
returns the empty string. -/
theorem format_time_other_kinds_empty (q : ℚ) (fmt : String)
    (h1 : fmt ≠ "SRT") (h2 : fmt ≠ "VTT") : format_time q fmt = "" := by
  unfold format_time
  rw [if_neg h1, if_neg h2]

/-- Witness for C10 at the concrete format kind "TXT". -/
theorem format_time_other_kinds_empty_witness : format_time 0 "TXT" = "" :=
  format_time_other_kinds_empty 0 "TXT" (by decide) (by decide)

/-- Unfolding the pagination comprehension once on a nonempty text. -/
lemma charPages_cons (t : List Char) (h : t ≠ []) :
    charPages t = t.take chunk_size :: charPages (t.drop chunk_size) := by
  have hL : 0 < t.length := List.length_pos.mpr h
  unfold charPages pyRange chunk_size
  have hm : (t.length + 2000 - 1) / 2000 = ((t.drop 2000).length + 2000 - 1) / 2000 + 1 := by
    simp only [List.length_drop]
    omega
  rw [hm, List.range_succ_eq_map]
  simp only [List.map_cons, List.map_map, Function.comp, Nat.zero_mul, List.drop_zero]
  refine congrArg (t.take 2000 :: ·) ?_
  apply List.map_congr_left
  intro j _
  simp only [Function.comp_apply]
  rw [List.drop_drop]
  have : 2000 + j * 2000 = Nat.succ j * 2000 := by omega
  rw [this]

/-- Bridge: `charPages` and its recursive restatement agree. -/
lemma charPages_eq_chunked (t : List Char) : charPages t = chunked t := by
  induction t using chunked.induct with
  | case1 => rw [chunked]; rfl
  | case2 t ht ih =>
      rw [chunked, dif_neg ht, charPages_cons t ht, ih]

lemma chunked_flatten (t : List Char) : (chunked t).flatten = t := by
  induction t using chunked.induct with
  | case1 => rw [chunked]; rfl
  | case2 t ht ih =>
      rw [chunked, dif_neg ht, List.flatten_cons, ih, List.take_append_drop]

lemma chunked_ne_nil (t : List Char) (h : t ≠ []) : chunked t ≠ [] := by
  rw [chunked, dif_neg h]
  exact List.cons_ne_nil _ _

lemma chunked_mem_le (t : List Char) : ∀ p ∈ chunked t, p.length ≤ chunk_size := by
  induction t using chunked.induct with
  | case1 => simp [chunked]
  | case2 t ht ih =>
      rw [chunked, dif_neg ht]
      intro p hp
      rcases List.mem_cons.mp hp with h1 | h2
      · subst h1
        simp only [List.length_take]
        exact Nat.min_le_left _ _
      · exact ih p h2

lemma chunked_dropLast_len (t : List Char) :
    ∀ p ∈ (chunked t).dropLast, p.length = chunk_size := by
  induction t using chunked.induct with
  | case1 => simp [chunked]
  | case2 t ht ih =>
      rw [chunked, dif_neg ht]
      by_cases hrest : t.drop chunk_size = []
      · rw [hrest]
        simp [chunked]
      · rw [List.dropLast_cons_of_ne_nil (chunked_ne_nil _ hrest)]
        intro p hp
        rcases List.mem_cons.mp hp with h1 | h2
        · subst h1
          have hgt : chunk_size ≤ t.length := by
            by_contra hcon
            exact hrest (List.drop_eq_nil_of_le (Nat.le_of_not_le hcon))
          simp only [List.length_take]
          omega
        · exact ih p h2

/-- View of `pages` through the recursive chunk representation. -/
lemma pages_eq_chunked (s : String) : pages s = (chunked s.toList).map String.mk := by
  unfold pages
  rw [charPages_eq_chunked]

/-- C3: pagination splits the rendered text into consecutive chunks of exactly
2000 characters, only the final chunk possibly shorter; a 4500-character text
yields 3 pages of lengths 2000, 2000, 500. -/
theorem pagination_chunking (s : String) :
    ((pages s).dropLast.all fun p => p.length == 2000) = true
    ∧ ((pages s).all fun p => decide (p.length ≤ 2000)) = true
    ∧ (pages s).length = (s.length + 2000 - 1) / 2000
    ∧ (s.length = 4500 → (pages s).map String.length = [2000, 2000, 500]) := by
  have hcount : (pages s).length = (s.length + 2000 - 1) / 2000 := by
    unfold pages charPages pyRange chunk_size
    simp only [List.length_map, List.length_range]
    rfl
  refine ⟨?_, ?_, hcount, ?_⟩
  · rw [List.all_eq_true]
    intro p hp
    rw [beq_iff_eq]
    rw [pages_eq_chunked, ← List.map_dropLast] at hp
    obtain ⟨q, hq, rfl⟩ := List.mem_map.mp hp
    exact chunked_dropLast_len s.toList q hq
  · rw [List.all_eq_true]
    intro p hp
    rw [decide_eq_true_eq]
    rw [pages_eq_chunked] at hp
    obtain ⟨q, hq, rfl⟩ := List.mem_map.mp hp
    exact chunked_mem_le s.toList q hq
  · intro h45
    have hlen3 : (chunked s.toList).length = 3 := by
      have : (pages s).length = (chunked s.toList).length := by
        rw [pages_eq_chunked, List.length_map]
      rw [← this, hcount, h45]
    obtain ⟨p1, p2, p3, hL⟩ := List.length_eq_three.mp hlen3
    have hflat : p1.length + p2.length + p3.length = 4500 := by
      have hf := chunked_flatten s.toList
      rw [hL] at hf
      have := congrArg List.length hf
      simp only [List.flatten_cons, List.flatten_nil, List.length_append,
        List.length_nil] at this
      have hsl : s.toList.length = 4500 := h45
      omega
    have hp1 : p1.length = 2000 := by
      refine chunked_dropLast_len s.toList p1 ?_
      rw [hL]
      simp
    have hp2 : p2.length = 2000 := by
      refine chunked_dropLast_len s.toList p2 ?_
      rw [hL]
      simp
    rw [pages_eq_chunked, hL]
    simp only [List.map_cons, List.map_nil]
    have hmk : ∀ q : List Char, (String.mk q).length = q.length := fun q => rfl
    rw [hmk p1, hmk p2, hmk p3, hp1, hp2]
    have hp3 : p3.length = 500 := by omega
    rw [hp3]

/-- Witness for C3 on a concrete 4500-character text. -/
theorem pagination_chunking_witness :
    (pages (String.mk (List.replicate 4500 'a'))).map String.length = [2000, 2000, 500] :=
  (pagination_chunking (String.mk (List.replicate 4500 'a'))).2.2.2
    (by show (List.replicate 4500 'a').length = 4500; rw [List.length_replicate])

/-- C4: concatenating all pages of any rendered text, in order and unedited,
reconstructs that text exactly. -/
theorem pages_concat_identity (s : String) : final_transcript (pages s) = s := by
  unfold final_transcript
  rw [pages_eq_chunked, string_join_map_mk, chunked_flatten]
  rfl

/-- C5: editing page `i` replaces only entry `i` of the working copy, and the
reassembled document is the original's prefix before page `i`, the edited
text, and the original's suffix after page `i`. -/
theorem edit_frame (ps : List String) (i : ℕ) (t : String) (h : i < ps.length) :
    (∀ j : ℕ, (editPage ps i t)[j]? = if j = i then some t else ps[j]?)
    ∧ final_transcript (editPage ps i t)
        = String.join (ps.take i) ++ t ++ String.join (ps.drop (i + 1))
    ∧ final_transcript ps
        = String.join (ps.take i) ++ ps[i] ++ String.join (ps.drop (i + 1)) := by
  refine ⟨?_, ?_, ?_⟩
  · intro j
    by_cases hj : j = i
    · subst hj
      rw [if_pos rfl]
      exact List.getElem?_set_self h
    · rw [if_neg hj]
      exact List.getElem?_set_ne (Ne.symm hj)
  · unfold editPage final_transcript
    rw [List.set_eq_take_cons_drop t h, string_join_append, string_join_cons,
      String.append_assoc]
  · unfold final_transcript
    conv_lhs => rw [← List.take_append_drop i ps, List.drop_eq_getElem_cons h]
    rw [string_join_append, string_join_cons, String.append_assoc]

/-- Witness for C5: editing page 1 of a concrete three-page list. -/
theorem edit_frame_witness :
    (∀ j : ℕ, (editPage ["ab", "cd", "ef"] 1 "XYZ")[j]?
        = if j = 1 then some "XYZ" else ["ab", "cd", "ef"][j]?)
    ∧ final_transcript (editPage ["ab", "cd", "ef"] 1 "XYZ")
        = String.join (["ab", "cd", "ef"].take 1) ++ "XYZ"
          ++ String.join (["ab", "cd", "ef"].drop 2)
    ∧ final_transcript ["ab", "cd", "ef"]
        = String.join (["ab", "cd", "ef"].take 1) ++ "cd"
          ++ String.join (["ab", "cd", "ef"].drop 2) :=
  edit_frame ["ab", "cd", "ef"] 1 "XYZ" (by decide)

/-- C8: on every path of a run in which the temporary audio file is created —
transcription success as well as a raised transcription error — the temporary
file is removed before the run ends. -/
theorem temp_file_always_removed (prior : Option SessionState) (fmt : String)
    (outcome : TranscribeOutcome) :
    (runTranscription prior fmt outcome).tempRemoved = true := by
  cases outcome <;> rfl

/-- C9: a raised transcription error is caught and reported, and the session
page state from any prior successful run is left exactly as it was. -/
theorem failure_preserves_prior_state (prior : Option SessionState) (fmt msg : String) :
    (runTranscription prior fmt (TranscribeOutcome.failure msg)).session = prior
    ∧ (runTranscription prior fmt (TranscribeOutcome.failure msg)).errorShown
        = some ("Transcription failed: " ++ msg) :=
  ⟨rfl, rfl⟩

end WhisperApp
